import Mathlib

/-!
Verification of the renovate-jira-bot merge-request linking policy.

The Go program polls GitLab for open merge requests authored by a renovate
bot, filters out merge requests whose title or description contains a
configured skip-keyword, checks whether a Jira ticket key is already linked
(in the title, description, or discussion notes), and otherwise creates a
Jira issue and posts a link comment back on the merge request.

The definitions below are a shallow embedding of main.go.  External HTTP
calls are represented by explicit oracle values (the response the network
would have produced); environment variables become explicit parameters.
Observable actions of one run are recorded as a list of events.
-/

/-- Embeds the Go struct MergeRequest (iid, title, description, web_url,
author.username). -/
structure MergeRequest where
  iid : Nat
  title : String
  description : String
  webURL : String
  authorUsername : String

/- ### String primitives used by the Go code -/

/-- Does the first list occur at the head of the second?  Used to model
substring search positions. -/
def startsWith : List Char → List Char → Bool
  | [], _ => true
  | _ :: _, [] => false
  | a :: as, b :: bs => (a == b) && startsWith as bs

/-- Embeds strings.Contains: the needle occurs somewhere in the haystack.
First argument is the needle, second the haystack. -/
def containsSub (needle : List Char) : List Char → Bool
  | [] => startsWith needle []
  | c :: rest => startsWith needle (c :: rest) || containsSub needle rest

/-- Embeds containsIgnoreCase from main.go:
strings.Contains(strings.ToLower(text), strings.ToLower(substr)),
with Char.toLower standing for the per-character lowering. -/
def containsIgnoreCaseL (text substr : List Char) : Bool :=
  containsSub (substr.map Char.toLower) (text.map Char.toLower)

/-- String-level wrapper for containsIgnoreCase. -/
def containsIgnoreCase (text substr : String) : Bool :=
  containsIgnoreCaseL text.data substr.data

/-- Embeds strings.Split(s, ",").  In particular splitting the empty
string yields a one-element list holding the empty string, as in Go. -/
def splitOnComma : List Char → List (List Char)
  | [] => [[]]
  | c :: rest =>
    if c = ',' then [] :: splitOnComma rest
    else
      match splitOnComma rest with
      | [] => [[c]]
      | g :: gs => (c :: g) :: gs

/- ### Keyword filter -/

/-- The loop body of containsKeyword: return true on the first keyword
found in the title or description (case-insensitively). -/
def anyKeywordHit : List (List Char) → MergeRequest → Bool
  | [], _ => false
  | kw :: rest, mr =>
    if containsIgnoreCaseL mr.title.data kw || containsIgnoreCaseL mr.description.data kw then
      true
    else anyKeywordHit rest mr

/-- Embeds containsKeyword from main.go.  keywordsEnv is the raw value of
the KEYWORDS_TO_SKIP environment variable, split on commas as in the Go
code. -/
def containsKeyword (keywordsEnv : String) (mr : MergeRequest) : Bool :=
  anyKeywordHit (splitOnComma keywordsEnv.data) mr

/- ### Jira key detection -/

/-- Does the rest of the pattern match at the head of the list: a hyphen
followed by at least one ASCII digit. -/
def digitAfterHyphen : List Char → Bool
  | c1 :: c2 :: _ => (c1 == '-') && c2.isDigit
  | _ => false

/-- Does the regular expression key-[0-9]+ match at the head of t:
the (quoted, hence literal) project key, a hyphen, then at least one
ASCII digit. -/
def jiraKeyHereB (key t : List Char) : Bool :=
  startsWith key t && digitAfterHyphen (t.drop key.length)

/-- Does key-[0-9]+ match anywhere in the text: embeds the Go regexp
search FindString over the pattern QuoteMeta(key) + "-\d+". -/
def hasJiraKeyCore (key : List Char) : List Char → Bool
  | [] => jiraKeyHereB key []
  | c :: rest => jiraKeyHereB key (c :: rest) || hasJiraKeyCore key rest

/-- Embeds hasJiraKey from main.go (the boolean component match != "";
since every match of the pattern is non-empty, this is exactly regex
matching).  projectKey is the value of JIRA_PROJECT_KEY. -/
def hasJiraKey (projectKey text : String) : Bool :=
  hasJiraKeyCore projectKey.data text.data

/- ### Linked-ticket check -/

/-- The note loop of mrHasLinkedJira: scan note bodies in order, stopping
at the first one containing a ticket key. -/
def anyNoteHasKey (projectKey : String) : List String → Bool
  | [] => false
  | n :: rest => if hasJiraKey projectKey n then true else anyNoteHasKey projectKey rest

/-- Embeds mrHasLinkedJira from main.go.  The notes oracle stands for the
GET notes call followed by JSON decoding (a transport or decode error
becomes Except.error).  The second component of the result records
whether the notes request was issued at all. -/
def mrHasLinkedJira (projectKey : String) (mr : MergeRequest)
    (notes : Except String (List String)) : Except String Bool × Bool :=
  if hasJiraKey projectKey mr.title then (Except.ok true, false)
  else if hasJiraKey projectKey mr.description then (Except.ok true, false)
  else
    match notes with
    | Except.error e => (Except.error e, true)
    | Except.ok ns => (Except.ok (anyNoteHasKey projectKey ns), true)

/- ### External writes, events, and the per merge request step -/

/-- Observable actions of a run, in order of occurrence.  The Sent
constructors are actual HTTP writes; the DryRun constructors are the
corresponding dry-run printouts; the remaining ones are log lines and
skips. -/
inductive Event where
  | skipKeyword : Nat → Event
  | linkCheckFail : Nat → String → Event
  | skipLinked : Nat → Event
  | jiraCreateSent : String → String → Event
  | jiraCreateDryRun : String → String → Event
  | issueCreateFailed : Nat → String → Event
  | mrCommentSent : Nat → String → Event
  | mrCommentDryRun : Nat → String → Event
  | commentFailed : Nat → String → Event
deriving DecidableEq

/-- Is the event an actual HTTP write to an external system? -/
def Event.isExternalWrite : Event → Bool
  | Event.jiraCreateSent _ _ => true
  | Event.mrCommentSent _ _ => true
  | _ => false

/-- Is the event an issue-creation action (real or dry-run)? -/
def Event.isCreate : Event → Bool
  | Event.jiraCreateSent _ _ => true
  | Event.jiraCreateDryRun _ _ => true
  | _ => false

/-- Is the event a comment-posting action (real or dry-run)? -/
def Event.isComment : Event → Bool
  | Event.mrCommentSent _ _ => true
  | Event.mrCommentDryRun _ _ => true
  | _ => false

/-- Embeds createJiraIssue from main.go.  In dry-run mode it returns the
placeholder key without any HTTP request; otherwise the POST is sent and
the oracle resp stands for its outcome (transport error, non-2xx status
and decode failure folded into Except.error). -/
def createJiraIssue (title desc : String) (dryRun : Bool)
    (resp : Except String String) : List Event × Except String String :=
  if dryRun then ([Event.jiraCreateDryRun title desc], Except.ok "DRY-123")
  else ([Event.jiraCreateSent title desc], resp)

/-- The comment text built by commentOnMR in main.go. -/
def commentBody (jiraURL jiraKey : String) : String :=
  "Jira issue created: [" ++ jiraKey ++ "](" ++ jiraURL ++ "/browse/" ++ jiraKey ++ ")"

/-- Embeds commentOnMR from main.go.  The comment body is built first; in
dry-run mode no HTTP request is made; otherwise the POST is sent and the
oracle resp stands for its outcome. -/
def commentOnMR (mrIID : Nat) (jiraURL jiraKey : String) (dryRun : Bool)
    (resp : Except String Unit) : List Event × Except String Unit :=
  let comment := commentBody jiraURL jiraKey
  if dryRun then ([Event.mrCommentDryRun mrIID comment], Except.ok ())
  else ([Event.mrCommentSent mrIID comment], resp)

/-- Environment configuration read by main.go, as one record. -/
structure Config where
  keywordsEnv : String
  jiraProjectKey : String
  jiraURL : String
  renovateUsername : String
  dryRunEnv : String

/-- The network responses one merge request iteration may consume. -/
structure Oracles where
  notes : Except String (List String)
  issueResp : Except String String
  commentResp : Except String Unit

/-- The tail of the loop body of main: create the Jira issue, then (only
on success) post the link comment, logging failures. -/
def processCreate (cfg : Config) (dryRun : Bool) (mr : MergeRequest) (o : Oracles) : List Event :=
  match createJiraIssue mr.title mr.webURL dryRun o.issueResp with
  | (ev1, Except.error e) => ev1 ++ [Event.issueCreateFailed mr.iid e]
  | (ev1, Except.ok jiraKey) =>
    match commentOnMR mr.iid cfg.jiraURL jiraKey dryRun o.commentResp with
    | (ev2, Except.error e) => ev1 ++ ev2 ++ [Event.commentFailed mr.iid e]
    | (ev2, Except.ok _) => ev1 ++ ev2

/-- The loop body of main after the keyword filter: check for a linked
ticket (skipping on error or on an existing link) and otherwise create
and comment. -/
def processAfterFilter (cfg : Config) (dryRun : Bool) (mr : MergeRequest) (o : Oracles) : List Event :=
  match (mrHasLinkedJira cfg.jiraProjectKey mr o.notes).1 with
  | Except.error e => [Event.linkCheckFail mr.iid e]
  | Except.ok true => [Event.skipLinked mr.iid]
  | Except.ok false => processCreate cfg dryRun mr o

/-- One iteration of the loop body of main for a single merge request. -/
def processMR (cfg : Config) (dryRun : Bool) (mr : MergeRequest) (o : Oracles) : List Event :=
  if containsKeyword cfg.keywordsEnv mr then [Event.skipKeyword mr.iid]
  else processAfterFilter cfg dryRun mr o

/-- The for-loop of main over the fetched merge requests.  oracleFor
assigns to each merge request the responses its iteration would see. -/
def runLoop (cfg : Config) (dryRun : Bool) (oracleFor : MergeRequest → Oracles) :
    List MergeRequest → List Event
  | [] => []
  | mr :: rest => processMR cfg dryRun mr (oracleFor mr) ++ runLoop cfg dryRun oracleFor rest

/- ### Fetching the merge requests, and the whole run -/

/-- The GitLab response to the merge-request listing: its HTTP status and
the result of JSON-decoding its body. -/
structure FetchResp where
  statusCode : Nat
  decoded : Except String (List MergeRequest)

/-- Outcome of a Go function call that may return an error value or crash
with a runtime panic (e.g. a nil-pointer dereference). -/
inductive GoResult (α : Type) where
  | ok : α → GoResult α
  | fail : String → GoResult α
  | crash : String → GoResult α
deriving DecidableEq

/-- The author filter loop of getRenovateMRs. -/
def filterByAuthor (username : String) : List MergeRequest → List MergeRequest
  | [] => []
  | mr :: rest =>
    if mr.authorUsername = username then mr :: filterByAuthor username rest
    else filterByAuthor username rest

/-- Embeds getRenovateMRs from main.go.  doErr is the transport error of
http.DefaultClient.Do (none on success) and resp the response (none when
the transport failed, as net/http guarantees).  The Go code tests
err != nil || resp.StatusCode != 200 with short-circuiting, and then
formats "Gitlab error: %d" from resp.StatusCode; reading a field of a nil
response is a crash. -/
def getRenovateMRs (renovateUsername : String) (doErr : Option String)
    (resp : Option FetchResp) : GoResult (List MergeRequest) :=
  match doErr, resp with
  | some _, none => GoResult.crash "runtime error: invalid memory address or nil pointer dereference"
  | some _, some r => GoResult.fail ("Gitlab error: " ++ toString r.statusCode)
  | none, none => GoResult.crash "runtime error: invalid memory address or nil pointer dereference"
  | none, some r =>
    if r.statusCode ≠ 200 then GoResult.fail ("Gitlab error: " ++ toString r.statusCode)
    else
      match r.decoded with
      | Except.error e => GoResult.fail e
      | Except.ok mrs => GoResult.ok (filterByAuthor renovateUsername mrs)

/-- Embeds strconv.ParseBool: the accepted literals, None on any other
input (the Go function then also returns an error). -/
def parseBool : String → Option Bool
  | "1" => some true
  | "t" => some true
  | "T" => some true
  | "TRUE" => some true
  | "true" => some true
  | "True" => some true
  | "0" => some false
  | "f" => some false
  | "F" => some false
  | "FALSE" => some false
  | "false" => some false
  | "False" => some false
  | _ => none

/-- The dry-run computation at the top of main: parse DRY_RUN ignoring
the error (yielding false on parse failure), then force dry-run when the
variable is unset or empty. -/
def computeDryRun (dryRunEnv : String) : Bool :=
  let dryRun := (parseBool dryRunEnv).getD false
  if dryRunEnv = "" then true else dryRun

/-- How a whole run ends: a crash, an explicit os.Exit, or normal
completion with the recorded events. -/
inductive RunOutcome where
  | exited : Nat → RunOutcome
  | crashed : String → RunOutcome
  | completed : List Event → RunOutcome

/-- The process exit status of an outcome (a Go panic exits with a
non-zero status, modelled as 2). -/
def RunOutcome.exitCode : RunOutcome → Nat
  | RunOutcome.exited c => c
  | RunOutcome.crashed _ => 2
  | RunOutcome.completed _ => 0

/-- The per merge request events of an outcome (none unless the run
reached the processing loop). -/
def RunOutcome.events : RunOutcome → List Event
  | RunOutcome.exited _ => []
  | RunOutcome.crashed _ => []
  | RunOutcome.completed evs => evs

/-- Embeds main from main.go: compute the dry-run flag, fetch the
merge requests (exiting with status 1 on a returned error), then run the
processing loop. -/
def mainRun (cfg : Config) (doErr : Option String) (resp : Option FetchResp)
    (oracleFor : MergeRequest → Oracles) : RunOutcome :=
  let dryRun := computeDryRun cfg.dryRunEnv
  match getRenovateMRs cfg.renovateUsername doErr resp with
  | GoResult.crash m => RunOutcome.crashed m
  | GoResult.fail _ => RunOutcome.exited 1
  | GoResult.ok mrs => RunOutcome.completed (runLoop cfg dryRun oracleFor mrs)

/- ### Sample fixtures for concrete evaluations -/

/-- A sample configuration: one skip-keyword, project key PROJ. -/
def sampleCfg : Config :=
  { keywordsEnv := "lockfile", jiraProjectKey := "PROJ", jiraURL := "https://jira.example",
    renovateUsername := "renovate[bot]", dryRunEnv := "" }

/-- A sample merge request whose title holds the skip-keyword. -/
def sampleKeywordMR : MergeRequest :=
  { iid := 7, title := "Update lockfile", description := "", webURL := "https://gl/mr/7",
    authorUsername := "renovate[bot]" }

/-- A sample merge request whose title holds a ticket key. -/
def sampleLinkedMR : MergeRequest :=
  { iid := 8, title := "PROJ-42 update foo", description := "", webURL := "https://gl/mr/8",
    authorUsername := "renovate[bot]" }

/-- A sample merge request with no skip-keyword and no ticket key. -/
def samplePlainMR : MergeRequest :=
  { iid := 9, title := "Update foo to 1.2", description := "", webURL := "https://gl/mr/9",
    authorUsername := "renovate[bot]" }

/-- Sample responses on which every request succeeds. -/
def sampleOracles : Oracles :=
  { notes := Except.ok [], issueResp := Except.ok "PROJ-101", commentResp := Except.ok () }

/- ### Helper lemmas about the string primitives -/

theorem startsWith_iff (n h : List Char) : startsWith n h = true ↔ ∃ t, h = n ++ t := by
  induction n generalizing h with
  | nil => simp [startsWith]
  | cons a as ih =>
    cases h with
    | nil => simp [startsWith]
    | cons b bs =>
      simp only [startsWith, Bool.and_eq_true, beq_iff_eq, ih]
      constructor
      · rintro ⟨rfl, t, rfl⟩
        exact ⟨t, rfl⟩
      · rintro ⟨t, ht⟩
        injection ht with h1 h2
        exact ⟨h1.symm, t, h2⟩

theorem containsSub_nil (l : List Char) : containsSub [] l = true := by
  cases l <;> simp [containsSub, startsWith]

theorem digitAfterHyphen_iff (l : List Char) :
    digitAfterHyphen l = true ↔ ∃ c rest, l = '-' :: c :: rest ∧ c.isDigit = true := by
  match l with
  | [] => simp [digitAfterHyphen]
  | [c1] => simp [digitAfterHyphen]
  | c1 :: c2 :: r =>
    simp only [digitAfterHyphen, Bool.and_eq_true, beq_iff_eq]
    constructor
    · rintro ⟨rfl, hdig⟩
      exact ⟨c2, r, rfl, hdig⟩
    · rintro ⟨c, rest, heq, hdig⟩
      simp only [List.cons.injEq] at heq
      obtain ⟨h1, h2, h3⟩ := heq
      subst h1; subst h2; subst h3
      exact ⟨rfl, hdig⟩

theorem jiraKeyHereB_iff (key t : List Char) :
    jiraKeyHereB key t = true ↔
      ∃ d s, t = key ++ '-' :: (d ++ s) ∧ d ≠ [] ∧ ∀ c ∈ d, c.isDigit = true := by
  unfold jiraKeyHereB
  rw [Bool.and_eq_true, startsWith_iff]
  constructor
  · rintro ⟨⟨r, rfl⟩, hm⟩
    rw [List.drop_left, digitAfterHyphen_iff] at hm
    obtain ⟨c, rest, rfl, hdig⟩ := hm
    exact ⟨[c], rest, rfl, by simp, by simpa using hdig⟩
  · rintro ⟨d, s, rfl, hd, hdig⟩
    refine ⟨⟨'-' :: (d ++ s), rfl⟩, ?_⟩
    rw [List.drop_left, digitAfterHyphen_iff]
    cases d with
    | nil => exact absurd rfl hd
    | cons c d2 =>
      exact ⟨c, d2 ++ s, by simp, hdig c (by simp)⟩

theorem hasJiraKeyCore_iff (key t : List Char) :
    hasJiraKeyCore key t = true ↔
      ∃ p d s, t = p ++ key ++ '-' :: (d ++ s) ∧ d ≠ [] ∧ ∀ c ∈ d, c.isDigit = true := by
  induction t with
  | nil =>
    simp only [hasJiraKeyCore, jiraKeyHereB_iff]
    constructor
    · rintro ⟨d, s, ht, hd, hdig⟩
      exact ⟨[], d, s, by simp [ht], hd, hdig⟩
    · rintro ⟨p, d, s, ht, hd, hdig⟩
      simp at ht
  | cons c rest ih =>
    simp only [hasJiraKeyCore, Bool.or_eq_true, jiraKeyHereB_iff, ih]
    constructor
    · rintro (⟨d, s, ht, hd, hdig⟩ | ⟨p, d, s, ht, hd, hdig⟩)
      · exact ⟨[], d, s, by simpa using ht, hd, hdig⟩
      · exact ⟨c :: p, d, s, by simp [ht], hd, hdig⟩
    · rintro ⟨p, d, s, ht, hd, hdig⟩
      cases p with
      | nil => exact Or.inl ⟨d, s, by simpa using ht, hd, hdig⟩
      | cons c2 p2 =>
        simp only [List.cons_append, List.cons.injEq] at ht
        exact Or.inr ⟨p2, d, s, ht.2, hd, hdig⟩

/-- Claim C2: hasJiraKey returns true precisely when the text contains a
substring of the form projectKey, hyphen, then one or more ASCII digits;
on every text with no such substring it returns false. -/
theorem hasJiraKey_iff_pattern (projectKey text : String) :
    hasJiraKey projectKey text = true ↔
      ∃ p d s : List Char,
        text.data = p ++ projectKey.data ++ '-' :: (d ++ s) ∧
          d ≠ [] ∧ ∀ c ∈ d, c.isDigit = true := by
  unfold hasJiraKey
  rw [hasJiraKeyCore_iff]

/- ### Helper lemmas about events and orderings -/

theorem no_comment_ordering (l : List Event) (hl : ∀ e ∈ l, Event.isComment e = false) :
    ∀ i e, l.get? i = some e → Event.isComment e = true →
      ∃ j f, j < i ∧ l.get? j = some f ∧ Event.isCreate f = true := by
  intro i e hget hc
  have hfalse := hl e (List.get?_mem hget)
  rw [hfalse] at hc
  exact absurd hc (by simp)

theorem create_head_ordering (a : Event) (l : List Event) (ha : Event.isCreate a = true)
    (hac : Event.isComment a = false) :
    ∀ i e, (a :: l).get? i = some e → Event.isComment e = true →
      ∃ j f, j < i ∧ (a :: l).get? j = some f ∧ Event.isCreate f = true := by
  intro i e hget hc
  cases i with
  | zero =>
    simp only [List.get?] at hget
    injection hget with h
    rw [← h, hac] at hc
    exact absurd hc (by simp)
  | succ n => exact ⟨0, a, Nat.succ_pos n, rfl, ha⟩

/- ### The claims -/

/-- Claim C1 (code bug in the source): the spec says an empty skip-keyword
list never filters, but with KEYWORDS_TO_SKIP unset or empty the Go code
splits the empty string into a one-element list containing the empty
keyword, and the empty string is a substring of every title, so the
filter skips every merge request. -/
theorem empty_keywords_filter_every_mr (mr : MergeRequest) :
    containsKeyword "" mr = true := by
  unfold containsKeyword
  have hsplit : splitOnComma (String.data "") = [[]] := rfl
  rw [hsplit]
  have h1 : containsIgnoreCaseL mr.title.data [] = true := by
    unfold containsIgnoreCaseL
    simpa using containsSub_nil (mr.title.data.map Char.toLower)
  simp [anyKeywordHit, h1]

/-- Claim C3: the linked-ticket check looks at the title, then the
description, then the notes in order; when the title or description holds
a ticket key it answers true without issuing the notes request, and
otherwise (notes fetched successfully) it answers true exactly when some
note body holds a ticket key. -/
theorem mrHasLinkedJira_order (key : String) (mr : MergeRequest)
    (notes : Except String (List String)) :
    (hasJiraKey key mr.title = true ∨ hasJiraKey key mr.description = true →
       mrHasLinkedJira key mr notes = (Except.ok true, false)) ∧
    (hasJiraKey key mr.title = false → hasJiraKey key mr.description = false →
       ∀ ns, notes = Except.ok ns →
         mrHasLinkedJira key mr notes = (Except.ok (anyNoteHasKey key ns), true)) ∧
    (∀ ns, anyNoteHasKey key ns = true ↔ ∃ n ∈ ns, hasJiraKey key n = true) := by
  refine ⟨?_, ?_, ?_⟩
  · rintro (h | h) <;> simp [mrHasLinkedJira, h]
  · intro h1 h2 ns hns
    subst hns
    simp [mrHasLinkedJira, h1, h2]
  · intro ns
    induction ns with
    | nil => simp [anyNoteHasKey]
    | cons n rest ih =>
      by_cases h : hasJiraKey key n
      · simp [anyNoteHasKey, h]
      · simp [anyNoteHasKey, h, ih]

/-- Witness for C3 at a concrete merge request whose title holds PROJ-42:
the check answers true and the notes request is never issued. -/
theorem mrHasLinkedJira_order_witness :
    mrHasLinkedJira "PROJ" sampleLinkedMR (Except.ok []) = (Except.ok true, false) :=
  (mrHasLinkedJira_order "PROJ" sampleLinkedMR (Except.ok [])).1 (Or.inl (by decide))

/-- Claim C5: the loop body runs for every fetched merge request whatever
the failures on the other iterations: the events of a run are exactly the
concatenation of each merge request's own events, and every merge
request's events appear in the run. -/
theorem runLoop_processes_all (cfg : Config) (dryRun : Bool)
    (oracleFor : MergeRequest → Oracles) (mrs : List MergeRequest) :
    (runLoop cfg dryRun oracleFor mrs =
       (mrs.map (fun mr => processMR cfg dryRun mr (oracleFor mr))).flatten) ∧
    (∀ i (h : i < mrs.length), ∃ pre post,
       runLoop cfg dryRun oracleFor mrs =
         pre ++ processMR cfg dryRun (mrs.get ⟨i, h⟩) (oracleFor (mrs.get ⟨i, h⟩)) ++ post) := by
  constructor
  · induction mrs with
    | nil => rfl
    | cons mr rest ih => simp [runLoop, ih]
  · induction mrs with
    | nil => intro i h; exact absurd h (by simp)
    | cons mr rest ih =>
      intro i h
      cases i with
      | zero => exact ⟨[], runLoop cfg dryRun oracleFor rest, by simp [runLoop]⟩
      | succ n =>
        obtain ⟨pre, post, hp⟩ := ih n (by simpa using h)
        exact ⟨processMR cfg dryRun mr (oracleFor mr) ++ pre, post,
          by simp [runLoop, hp, List.get_cons_succ]⟩

/-- Witness for C5: in a run over two merge requests whose first
iteration fails to fetch notes, the second merge request is still
processed. -/
theorem runLoop_processes_all_witness :
    ∃ pre post,
      runLoop sampleCfg true
          (fun mr => if mr.iid = 9 then { sampleOracles with notes := Except.error "boom" }
                     else sampleOracles)
          [samplePlainMR, sampleKeywordMR] =
        pre ++ processMR sampleCfg true sampleKeywordMR sampleOracles ++ post := by
  have h := (runLoop_processes_all sampleCfg true
      (fun mr => if mr.iid = 9 then { sampleOracles with notes := Except.error "boom" }
                 else sampleOracles)
      [samplePlainMR, sampleKeywordMR]).2 1 (by decide)
  simpa [sampleKeywordMR, samplePlainMR] using h

/-- Claim C7: with the dry-run flag set, an iteration performs no
external write: no issue-creation request and no comment request is
sent, and both write functions return immediately after printing. -/
theorem dryRun_no_external_writes (cfg : Config) (mr : MergeRequest) (o : Oracles) :
    ((processMR cfg true mr o).all (fun e => !Event.isExternalWrite e) = true) ∧
    (∀ title desc resp, createJiraIssue title desc true resp =
       ([Event.jiraCreateDryRun title desc], Except.ok "DRY-123")) ∧
    (∀ iid url key resp, commentOnMR iid url key true resp =
       ([Event.mrCommentDryRun iid (commentBody url key)], Except.ok ())) := by
  refine ⟨?_, fun _ _ _ => rfl, fun _ _ _ _ => rfl⟩
  unfold processMR
  by_cases hk : containsKeyword cfg.keywordsEnv mr = true
  · simp [hk, Event.isExternalWrite]
  · have hne : containsKeyword cfg.keywordsEnv mr = false := by simpa using hk
    simp only [hne, Bool.false_eq_true, if_false]
    unfold processAfterFilter
    cases hres : (mrHasLinkedJira cfg.jiraProjectKey mr o.notes).1 with
    | error e => simp [Event.isExternalWrite]
    | ok b =>
      cases b with
      | true => simp [Event.isExternalWrite]
      | false =>
        unfold processCreate createJiraIssue commentOnMR
        simp [Event.isExternalWrite]

/-- Claim C10: the dry-run toggle defaults to safe: empty DRY_RUN means
dry-run on; a value strconv.ParseBool accepts is used as parsed; any
other non-empty value yields dry-run off. -/
theorem dryRun_default_policy :
    computeDryRun "" = true ∧
    (∀ s b, parseBool s = some b → computeDryRun s = b) ∧
    (∀ s, s ≠ "" → parseBool s = none → computeDryRun s = false) := by
  refine ⟨rfl, ?_, ?_⟩
  · intro s b hp
    have hne : s ≠ "" := by
      intro h
      rw [h] at hp
      exact Option.noConfusion ((rfl : parseBool "" = none) ▸ hp)
    simp [computeDryRun, hne, hp]
  · intro s hne hp
    simp [computeDryRun, hne, hp]

/-- Witness for C10: DRY_RUN set to the accepted literal false turns
dry-run off. -/
theorem dryRun_default_policy_witness : computeDryRun "false" = false :=
  dryRun_default_policy.2.1 "false" false rfl

/-- Claim C9 (code bug in the source): on a transport error of the
merge-request fetch (err non-nil, response nil) the Go code still reads
resp.StatusCode while formatting its "Gitlab error" message, so instead
of returning the transport error without touching the response it
dereferences a nil pointer and the process crashes. -/
theorem transport_error_crashes :
    getRenovateMRs "renovate[bot]" (some "connection refused") none =
      GoResult.crash "runtime error: invalid memory address or nil pointer dereference" := rfl

/-- Claim C6: when fetching the open merge requests fails, by transport
error or by a non-200 status, the run ends with a non-zero exit status
and no merge request is processed. -/
theorem fetch_failure_aborts (cfg : Config) (oracleFor : MergeRequest → Oracles)
    (doErr : Option String) (resp : Option FetchResp)
    (h : doErr.isSome = true ∨ ∃ r, resp = some r ∧ r.statusCode ≠ 200) :
    (mainRun cfg doErr resp oracleFor).exitCode ≠ 0 ∧
      (mainRun cfg doErr resp oracleFor).events = [] := by
  rcases h with h | ⟨r, rfl, hr⟩
  · cases doErr with
    | none => simp at h
    | some e =>
      cases resp with
      | none =>
        exact ⟨by simp [mainRun, getRenovateMRs, RunOutcome.exitCode],
               by simp [mainRun, getRenovateMRs, RunOutcome.events]⟩
      | some r =>
        exact ⟨by simp [mainRun, getRenovateMRs, RunOutcome.exitCode],
               by simp [mainRun, getRenovateMRs, RunOutcome.events]⟩
  · cases doErr with
    | none =>
      exact ⟨by simp [mainRun, getRenovateMRs, hr, RunOutcome.exitCode],
             by simp [mainRun, getRenovateMRs, hr, RunOutcome.events]⟩
    | some e =>
      exact ⟨by simp [mainRun, getRenovateMRs, RunOutcome.exitCode],
             by simp [mainRun, getRenovateMRs, RunOutcome.events]⟩

/-- Witness for C6: a concrete transport failure ends the run with a
non-zero status and an empty event list. -/
theorem fetch_failure_aborts_witness :
    (mainRun sampleCfg (some "connection refused") none (fun _ => sampleOracles)).exitCode ≠ 0 ∧
      (mainRun sampleCfg (some "connection refused") none (fun _ => sampleOracles)).events = [] :=
  fetch_failure_aborts sampleCfg (fun _ => sampleOracles) (some "connection refused") none
    (Or.inl rfl)

/-- Claim C8: a merge request that already carries a linked ticket key,
in its title, its description, or one of its notes, triggers no issue
creation and no comment on a further run; without a keyword skip it is
skipped precisely as already linked.  Moreover the comment a previous
run posted (the commentBody for a key built from the project key and
digits) is itself detected by hasJiraKey, so a second run equals the
first. -/
theorem second_run_is_noop (cfg : Config) (dryRun : Bool) (mr : MergeRequest) (o : Oracles)
    (hlink : hasJiraKey cfg.jiraProjectKey mr.title = true ∨
             hasJiraKey cfg.jiraProjectKey mr.description = true ∨
             ∃ ns, o.notes = Except.ok ns ∧ anyNoteHasKey cfg.jiraProjectKey ns = true) :
    ((processMR cfg dryRun mr o).all
        (fun e => !(Event.isCreate e || Event.isComment e)) = true) ∧
    (containsKeyword cfg.keywordsEnv mr = false →
       processMR cfg dryRun mr o = [Event.skipLinked mr.iid]) ∧
    (∀ jiraURL : String, ∀ d : List Char, d ≠ [] → (∀ ch ∈ d, ch.isDigit = true) →
       hasJiraKey cfg.jiraProjectKey
         (commentBody jiraURL (cfg.jiraProjectKey ++ "-" ++ String.mk d)) = true) := by
  have hres : (mrHasLinkedJira cfg.jiraProjectKey mr o.notes).1 = Except.ok true := by
    rcases hlink with h | h | ⟨ns, hns, hany⟩
    · simp [mrHasLinkedJira, h]
    · simp [mrHasLinkedJira, h]
    · by_cases h1 : hasJiraKey cfg.jiraProjectKey mr.title = true
      · simp [mrHasLinkedJira, h1]
      · have h1f : hasJiraKey cfg.jiraProjectKey mr.title = false := by simpa using h1
        by_cases h2 : hasJiraKey cfg.jiraProjectKey mr.description = true
        · simp [mrHasLinkedJira, h1f, h2]
        · have h2f : hasJiraKey cfg.jiraProjectKey mr.description = false := by simpa using h2
          simp [mrHasLinkedJira, h1f, h2f, hns, hany]
  refine ⟨?_, ?_, ?_⟩
  · unfold processMR
    by_cases hk : containsKeyword cfg.keywordsEnv mr = true
    · simp [hk, Event.isCreate, Event.isComment]
    · have hne : containsKeyword cfg.keywordsEnv mr = false := by simpa using hk
      simp only [hne, Bool.false_eq_true, if_false]
      unfold processAfterFilter
      rw [hres]
      simp [Event.isCreate, Event.isComment]
  · intro hk
    unfold processMR
    simp only [hk, Bool.false_eq_true, if_false]
    unfold processAfterFilter
    rw [hres]
  · intro jiraURL d hd hdig
    unfold hasJiraKey
    rw [hasJiraKeyCore_iff]
    refine ⟨("Jira issue created: [" : String).data, d,
      ("](" ++ jiraURL ++ "/browse/" ++ (cfg.jiraProjectKey ++ "-" ++ String.mk d) ++ ")").data,
      ?_, hd, hdig⟩
    have hdash : ("-" : String).data = ['-'] := rfl
    have hmk : (String.mk d).data = d := rfl
    simp [commentBody, String.data_append, hdash, hmk]

/-- Witness for C8: a merge request whose title already holds PROJ-42 is
skipped as linked, with no creation or comment action. -/
theorem second_run_is_noop_witness :
    processMR sampleCfg true sampleLinkedMR sampleOracles = [Event.skipLinked 8] :=
  (second_run_is_noop sampleCfg true sampleLinkedMR sampleOracles (Or.inl (by decide))).2.1
    (by decide)

/-- Claim C4: per merge request the outcomes are decided in order: a
keyword hit skips with no further action; else a detected link (or a
failed link check) skips with no creation or comment; else the issue
creation action comes first, and in every case a comment action is
preceded by an issue-creation action, so the comment is never posted
before, or without, issue creation. -/
theorem decision_policy_order (cfg : Config) (dryRun : Bool) (mr : MergeRequest) (o : Oracles) :
    (containsKeyword cfg.keywordsEnv mr = true →
       processMR cfg dryRun mr o = [Event.skipKeyword mr.iid]) ∧
    (containsKeyword cfg.keywordsEnv mr = false →
       (mrHasLinkedJira cfg.jiraProjectKey mr o.notes).1 = Except.ok true →
       processMR cfg dryRun mr o = [Event.skipLinked mr.iid]) ∧
    (containsKeyword cfg.keywordsEnv mr = false →
       (mrHasLinkedJira cfg.jiraProjectKey mr o.notes).1 = Except.ok false →
       ∃ rest, processMR cfg dryRun mr o =
         (if dryRun then Event.jiraCreateDryRun mr.title mr.webURL
          else Event.jiraCreateSent mr.title mr.webURL) :: rest) ∧
    (∀ i e, (processMR cfg dryRun mr o).get? i = some e → Event.isComment e = true →
       ∃ j f, j < i ∧ (processMR cfg dryRun mr o).get? j = some f ∧
         Event.isCreate f = true) := by
  refine ⟨?_, ?_, ?_, ?_⟩
  · intro hk
    simp [processMR, hk]
  · intro hk hres
    simp [processMR, hk, processAfterFilter, hres]
  · intro hk hres
    have hpm : processMR cfg dryRun mr o = processCreate cfg dryRun mr o := by
      simp [processMR, hk, processAfterFilter, hres]
    rw [hpm]
    cases dryRun with
    | true =>
      exact ⟨[Event.mrCommentDryRun mr.iid (commentBody cfg.jiraURL "DRY-123")],
        by simp [processCreate, createJiraIssue, commentOnMR]⟩
    | false =>
      cases hir : o.issueResp with
      | error e =>
        exact ⟨[Event.issueCreateFailed mr.iid e],
          by simp [processCreate, createJiraIssue, hir]⟩
      | ok k =>
        cases hcr : o.commentResp with
        | error e2 =>
          exact ⟨[Event.mrCommentSent mr.iid (commentBody cfg.jiraURL k),
                  Event.commentFailed mr.iid e2],
            by simp [processCreate, createJiraIssue, commentOnMR, hir, hcr]⟩
        | ok u =>
          exact ⟨[Event.mrCommentSent mr.iid (commentBody cfg.jiraURL k)],
            by simp [processCreate, createJiraIssue, commentOnMR, hir, hcr]⟩
  · by_cases hk : containsKeyword cfg.keywordsEnv mr = true
    · have hev : processMR cfg dryRun mr o = [Event.skipKeyword mr.iid] := by
        simp [processMR, hk]
      rw [hev]
      exact no_comment_ordering _ (by simp [Event.isComment])
    · have hne : containsKeyword cfg.keywordsEnv mr = false := by simpa using hk
      cases hres : (mrHasLinkedJira cfg.jiraProjectKey mr o.notes).1 with
      | error e =>
        have hev : processMR cfg dryRun mr o = [Event.linkCheckFail mr.iid e] := by
          simp [processMR, hne, processAfterFilter, hres]
        rw [hev]
        exact no_comment_ordering _ (by simp [Event.isComment])
      | ok b =>
        cases b with
        | true =>
          have hev : processMR cfg dryRun mr o = [Event.skipLinked mr.iid] := by
            simp [processMR, hne, processAfterFilter, hres]
          rw [hev]
          exact no_comment_ordering _ (by simp [Event.isComment])
        | false =>
          cases dryRun with
          | true =>
            have hev : processMR cfg true mr o =
                [Event.jiraCreateDryRun mr.title mr.webURL,
                 Event.mrCommentDryRun mr.iid (commentBody cfg.jiraURL "DRY-123")] := by
              simp [processMR, hne, processAfterFilter, hres, processCreate,
                createJiraIssue, commentOnMR]
            rw [hev]
            exact create_head_ordering _ _ rfl rfl
          | false =>
            cases hir : o.issueResp with
            | error e =>
              have hev : processMR cfg false mr o =
                  [Event.jiraCreateSent mr.title mr.webURL,
                   Event.issueCreateFailed mr.iid e] := by
                simp [processMR, hne, processAfterFilter, hres, processCreate,
                  createJiraIssue, hir]
              rw [hev]
              exact no_comment_ordering _ (by simp [Event.isComment])
            | ok k =>
              cases hcr : o.commentResp with
              | error e2 =>
                have hev : processMR cfg false mr o =
                    [Event.jiraCreateSent mr.title mr.webURL,
                     Event.mrCommentSent mr.iid (commentBody cfg.jiraURL k),
                     Event.commentFailed mr.iid e2] := by
                  simp [processMR, hne, processAfterFilter, hres, processCreate,
                    createJiraIssue, commentOnMR, hir, hcr]
                rw [hev]
                exact create_head_ordering _ _ rfl rfl
              | ok u =>
                have hev : processMR cfg false mr o =
                    [Event.jiraCreateSent mr.title mr.webURL,
                     Event.mrCommentSent mr.iid (commentBody cfg.jiraURL k)] := by
                  simp [processMR, hne, processAfterFilter, hres, processCreate,
                    createJiraIssue, commentOnMR, hir, hcr]
                rw [hev]
                exact create_head_ordering _ _ rfl rfl

/-- Witness for C4: a merge request whose title holds the skip-keyword is
skipped by the filter with no further action. -/
theorem decision_policy_order_witness :
    processMR sampleCfg true sampleKeywordMR sampleOracles = [Event.skipKeyword 7] :=
  (decision_policy_order sampleCfg true sampleKeywordMR sampleOracles).1 (by decide)
